import Mathlib

/-!
Shallow embedding of `src/Flux_Survivalist/src/main.rs`, the terminal
survival-game interface skeleton, together with proofs of the specified
properties of its state machine and loop driver.

Machine integers of the source are modelled as `Nat`, taking the remainder
modulo `2 ^ w` exactly where the source operation can wrap.
-/

namespace FluxSurvivalist

/-- The `Item` enum: `Wood`, `Fibre`, `Water`. -/
inductive Item : Type where
  | Wood : Item
  | Fibre : Item
  | Water : Item
deriving DecidableEq, Repr

/-- `Item::as_str`: the display label of each item kind. -/
def Item.as_str : Item → String
  | .Wood => "wood"
  | .Fibre => "fibre"
  | .Water => "water"

/-- The `App` struct: tab titles, current tab index (`usize`), a wrapping
scroll counter (`u8`, kept as a `Nat` with wrap applied at the operation),
and the static inventory of `(Item, u8)` pairs. -/
structure App : Type where
  titles : List String
  cur_tab : Nat
  scroll : Nat
  inventory : List (Item × Nat)
deriving DecidableEq, Repr

/-- `App::new()`: four fixed tab titles, indices at zero, the fixed
three-item inventory. -/
def App.new : App :=
  { titles := ["Tab1", "Tab2", "Tab3", "Tab4"]
    cur_tab := 0
    scroll := 0
    inventory := [(Item.Wood, 10), (Item.Fibre, 3), (Item.Water, 13)] }

/-- `App::next()`: `self.cur_tab = (self.cur_tab + 1) % self.titles.len()`. -/
def App.next (a : App) : App :=
  { a with cur_tab := (a.cur_tab + 1) % a.titles.length }

/-- `App::previous()`: decrement when `cur_tab > 0`, otherwise wrap to
`titles.len() - 1`. -/
def App.previous (a : App) : App :=
  if a.cur_tab > 0 then
    { a with cur_tab := a.cur_tab - 1 }
  else
    { a with cur_tab := a.titles.length - 1 }

/-- `App::on_tick()`: `self.scroll += 1; self.scroll %= 10`.  The `+= 1`
is a `u8` addition, so the sum is reduced modulo `2 ^ 8` before the
`%= 10`. -/
def App.on_tick (a : App) : App :=
  { a with scroll := ((a.scroll + 1) % 256) % 10 }

/-- A tab-navigation call: `App::next` or `App::previous`. -/
inductive TabCmd : Type where
  | advance : TabCmd
  | retreat : TabCmd
deriving DecidableEq, Repr

/-- Apply one tab-navigation call to the state. -/
def App.applyTab (a : App) : TabCmd → App
  | .advance => a.next
  | .retreat => a.previous

/-- Apply a finite sequence of tab-navigation calls, left to right. -/
def App.runTabs (a : App) (cs : List TabCmd) : App :=
  cs.foldl App.applyTab a

/-- Iterate `App::next` a given number of times. -/
def App.iterNext : Nat → App → App
  | 0, a => a
  | k + 1, a => App.iterNext k a.next

/-- Iterate `App::on_tick` a given number of times. -/
def App.iterTick : Nat → App → App
  | 0, a => a
  | k + 1, a => App.iterTick k a.on_tick

lemma next_titles (a : App) : a.next.titles = a.titles := rfl

lemma previous_titles (a : App) : a.previous.titles = a.titles := by
  unfold App.previous
  split <;> rfl

lemma applyTab_titles (a : App) (c : TabCmd) : (a.applyTab c).titles = a.titles := by
  cases c
  · exact next_titles a
  · exact previous_titles a

lemma runTabs_titles (cs : List TabCmd) (a : App) : (a.runTabs cs).titles = a.titles := by
  induction cs generalizing a with
  | nil => rfl
  | cons c cs ih =>
      show ((a.applyTab c).runTabs cs).titles = a.titles
      rw [ih, applyTab_titles]

lemma next_cur_tab_lt (a : App) (hn : 0 < a.titles.length) :
    a.next.cur_tab < a.titles.length :=
  Nat.mod_lt _ hn

lemma previous_cur_tab_lt (a : App) (hn : 0 < a.titles.length)
    (hc : a.cur_tab < a.titles.length) :
    a.previous.cur_tab < a.titles.length := by
  unfold App.previous
  split
  · simpa using Nat.lt_of_le_of_lt (Nat.sub_le _ _) hc
  · simpa using Nat.sub_lt hn Nat.one_pos

lemma applyTab_cur_tab_lt (a : App) (c : TabCmd) (hn : 0 < a.titles.length)
    (hc : a.cur_tab < a.titles.length) :
    (a.applyTab c).cur_tab < a.titles.length := by
  cases c
  · exact next_cur_tab_lt a hn
  · exact previous_cur_tab_lt a hn hc

lemma runTabs_cur_tab_lt (cs : List TabCmd) (a : App) (hn : 0 < a.titles.length)
    (hc : a.cur_tab < a.titles.length) :
    (a.runTabs cs).cur_tab < a.titles.length := by
  induction cs generalizing a with
  | nil => exact hc
  | cons c cs ih =>
      show ((a.applyTab c).runTabs cs).cur_tab < a.titles.length
      have ht := applyTab_titles a c
      have h1 : 0 < (a.applyTab c).titles.length := by rw [ht]; exact hn
      have h2 := applyTab_cur_tab_lt a c hn hc
      have := ih (a.applyTab c) h1 (by rw [ht]; exact h2)
      rwa [applyTab_titles] at this

/-- The key codes the loop inspects: `KeyCode::Char(c)`, `KeyCode::Right`,
`KeyCode::Left`, and a representative for every other key code. -/
inductive KeyCode : Type where
  | char : Char → KeyCode
  | right : KeyCode
  | left : KeyCode
  | up : KeyCode
  | down : KeyCode
  | enter : KeyCode
  | esc : KeyCode
  | otherKey : KeyCode
deriving DecidableEq, Repr

/-- The events the loop can read: `Event::Key(key)` (the loop only looks at
`key.code`), plus non-key events (`Event::Mouse`, `Event::Resize`). -/
inductive RawEvent : Type where
  | key : KeyCode → RawEvent
  | mouse : RawEvent
  | resize : RawEvent
deriving DecidableEq, Repr

/-- The fallible collaborator outcomes one `loop` iteration of `run_app`
consumes: the `terminal.draw` result, the `event::poll(timeout)` result,
the `event::read()` result (consulted only when the poll reported an
event), and whether `last_tick.elapsed() >= tick_rate` held at the end of
the iteration. -/
structure IterInput : Type where
  drawRes : Except String Unit
  pollRes : Except String Bool
  readRes : Except String RawEvent
  tickDue : Bool
deriving Repr

/-- What one `loop` iteration of `run_app` does: `return Ok(())`, fail
with an error propagated by `?`, or carry on with an updated state. -/
inductive LoopStep : Type where
  | quit : App → LoopStep
  | again : App → LoopStep
  | failed : String → LoopStep
deriving DecidableEq, Repr

/-- The tick check closing an iteration of `run_app`:
`if last_tick.elapsed() >= tick_rate { last_tick = Instant::now(); app.on_tick(); }`. -/
def afterTick (a : App) (i : IterInput) : LoopStep :=
  .again (if i.tickDue then a.on_tick else a)

/-- One `loop` iteration of `run_app`: draw, poll with the timeout, read
and dispatch the key event if one arrived, then the tick check. -/
def runIter (a : App) (i : IterInput) : LoopStep :=
  match i.drawRes with
  | .error e => .failed e
  | .ok _ =>
    match i.pollRes with
    | .error e => .failed e
    | .ok b =>
      if b then
        match i.readRes with
        | .error e => .failed e
        | .ok ev =>
          match ev with
          | .key (.char c) => if c = 'q' then .quit a else afterTick a i
          | .key .right => afterTick a.next i
          | .key .left => afterTick a.previous i
          | _ => afterTick a i
      else
        afterTick a i

/-- How a `run_app` run ends over a finite trace of iteration inputs:
still `running` when the trace is exhausted, `quit` on the character `q`,
or `failed` on the first collaborator error. -/
inductive LoopOutcome : Type where
  | running : App → LoopOutcome
  | quit : App → LoopOutcome
  | failed : String → LoopOutcome
deriving DecidableEq, Repr

/-- `run_app`, unrolled over a finite trace of iteration inputs. -/
def runApp (a : App) : List IterInput → LoopOutcome
  | [] => .running a
  | i :: rest =>
    match runIter a i with
    | .failed e => .failed e
    | .quit a2 => .quit a2
    | .again a2 => runApp a2 rest

/-- `Duration::checked_sub`: `some (a - b)` when `b <= a`, otherwise
`none`.  Durations are modelled as `Nat` milliseconds. -/
def checkedSub (a b : Nat) : Option Nat :=
  if b ≤ a then some (a - b) else none

/-- The per-iteration poll timeout of `run_app`:
`tick_rate.checked_sub(last_tick.elapsed()).unwrap_or_else(Duration::from_secs(0))`. -/
def computeTimeout (tickRate elapsed : Nat) : Nat :=
  match checkedSub tickRate elapsed with
  | some d => d
  | none => 0

/-- The outcomes of the fallible steps of `main`: the three setup steps
before `run_app`, the trace driving `run_app`, and the three
terminal-restoring steps after it. -/
structure MainWorld : Type where
  enableRaw : Except String Unit
  enterAltScreen : Except String Unit
  newTerminal : Except String Unit
  trace : List IterInput
  disableRaw : Except String Unit
  leaveAltScreen : Except String Unit
  showCursor : Except String Unit
deriving Repr

/-- `main`: setup with `?`, `run_app` on `App::new()`, restore with `?`,
then `if let Err(err) = res { println!("{:?}", err) }` and `Ok(())`.
Returns the result of `main` together with the lines it printed. -/
def mainRun (w : MainWorld) : Except String Unit × List String :=
  match w.enableRaw with
  | .error e => (.error e, [])
  | .ok _ =>
    match w.enterAltScreen with
    | .error e => (.error e, [])
    | .ok _ =>
      match w.newTerminal with
      | .error e => (.error e, [])
      | .ok _ =>
        let res := runApp App.new w.trace
        match w.disableRaw with
        | .error e => (.error e, [])
        | .ok _ =>
          match w.leaveAltScreen with
          | .error e => (.error e, [])
          | .ok _ =>
            match w.showCursor with
            | .error e => (.error e, [])
            | .ok _ =>
              match res with
              | .failed err => (.ok (), [err])
              | _ => (.ok (), [])

/-- The `Command` enumeration of the spec: the decoded meaning of an
input event. -/
inductive Command : Type where
  | Quit : Command
  | NextTab : Command
  | PreviousTab : Command
  | NoOp : Command
deriving DecidableEq, Repr

/-- Modelled from the spec: the fixed decoding of a raw event into a
`Command` (`q` quits, right arrow advances, left arrow retreats,
everything else is a no-op).  Stated spec-side, to be compared with the
dispatch the source loop `runIter` performs. -/
def specDecode : RawEvent → Command
  | .key (.char c) => if c = 'q' then .Quit else .NoOp
  | .key .right => .NextTab
  | .key .left => .PreviousTab
  | _ => .NoOp

/-- The `unreachable` match of `ui` on `app.cur_tab`: the title of the
inner block for tabs 0 to 3, and `none` standing for the `unreachable!()`
arm. -/
def uiInnerTitle : Nat → Option String
  | 0 => some "Inner 0"
  | 1 => some "Inner 1"
  | 2 => some "Inner 2"
  | 3 => some "Inner 3"
  | _ => none

/-- Modelled from the spec: dispatching a decoded `Command` inside the
loop body (`Quit` returns, `NextTab` invokes `App::next`, `PreviousTab`
invokes `App::previous`, `NoOp` leaves the state alone), followed by the
tick check.  Stated spec-side, to be compared with `runIter`. -/
def dispatchCmd (a : App) (i : IterInput) : Command → LoopStep
  | .Quit => .quit a
  | .NextTab => afterTick a.next i
  | .PreviousTab => afterTick a.previous i
  | .NoOp => afterTick a i

/-- An iteration input whose terminal draw fails. -/
def failingIter : IterInput :=
  { drawRes := .error "draw failed"
    pollRes := .ok false
    readRes := .ok .mouse
    tickDue := false }

/-- A run of `main` in which every terminal-mode step succeeds and the
first loop iteration fails to draw. -/
def failingWorld : MainWorld :=
  { enableRaw := .ok ()
    enterAltScreen := .ok ()
    newTerminal := .ok ()
    trace := [failingIter]
    disableRaw := .ok ()
    leaveAltScreen := .ok ()
    showCursor := .ok () }

/-- An iteration input that successfully reads a right-arrow key event. -/
def iterOkRight : IterInput :=
  { drawRes := .ok ()
    pollRes := .ok true
    readRes := .ok (.key .right)
    tickDue := false }

lemma iterNext_titles (k : Nat) (a : App) : (App.iterNext k a).titles = a.titles := by
  induction k generalizing a with
  | zero => rfl
  | succ k ih =>
      show (App.iterNext k a.next).titles = a.titles
      rw [ih, next_titles]

lemma iterNext_cur_tab (k : Nat) (a : App) (hc : a.cur_tab < a.titles.length) :
    (App.iterNext k a).cur_tab = (a.cur_tab + k) % a.titles.length := by
  induction k generalizing a with
  | zero => simpa using (Nat.mod_eq_of_lt hc).symm
  | succ k ih =>
      have hn : 0 < a.titles.length := Nat.lt_of_le_of_lt (Nat.zero_le _) hc
      show (App.iterNext k a.next).cur_tab = _
      have hc2 : a.next.cur_tab < a.next.titles.length := by
        rw [next_titles]
        exact Nat.mod_lt _ hn
      rw [ih a.next hc2, next_titles]
      show ((a.cur_tab + 1) % a.titles.length + k) % a.titles.length
        = (a.cur_tab + (k + 1)) % a.titles.length
      rw [Nat.mod_add_mod]
      congr 1
      omega

lemma iterTick_scroll (k : Nat) (a : App) (hs : a.scroll < 10) :
    (App.iterTick k a).scroll = (a.scroll + k) % 10 := by
  induction k generalizing a with
  | zero => simpa using (Nat.mod_eq_of_lt hs).symm
  | succ k ih =>
      have hs2 : a.on_tick.scroll < 10 := by
        show ((a.scroll + 1) % 256) % 10 < 10
        omega
      show (App.iterTick k a.on_tick).scroll = _
      rw [ih a.on_tick hs2]
      show ((((a.scroll + 1) % 256) % 10) + k) % 10 = (a.scroll + (k + 1)) % 10
      rw [Nat.mod_eq_of_lt (show a.scroll + 1 < 256 by omega), Nat.mod_add_mod]
      congr 1
      omega

lemma previous_cur_tab (a : App) :
    a.previous.cur_tab
      = if a.cur_tab > 0 then a.cur_tab - 1 else a.titles.length - 1 := by
  unfold App.previous
  split <;> simp_all

lemma next_cur_tab (a : App) :
    a.next.cur_tab = (a.cur_tab + 1) % a.titles.length := rfl

/-- C1: for every tab count `n = titles.length > 0` and every state with
`cur_tab < n`, any finite sequence of `App::next` and `App::previous`
calls preserves the invariant `cur_tab < n`; no call indexes out of
bounds. -/
theorem C1_tab_index_invariant (a : App) (cs : List TabCmd)
    (hn : 0 < a.titles.length) (hc : a.cur_tab < a.titles.length) :
    (a.runTabs cs).cur_tab < (a.runTabs cs).titles.length := by
  rw [runTabs_titles]
  exact runTabs_cur_tab_lt cs a hn hc

/-- C1 witness: the invariant after a concrete call sequence from
`App::new()`. -/
theorem C1_tab_index_invariant_witness :
    0 < App.new.titles.length ∧ App.new.cur_tab < App.new.titles.length ∧
      (App.new.runTabs [TabCmd.retreat, TabCmd.advance, TabCmd.retreat]).cur_tab
        < (App.new.runTabs [TabCmd.retreat, TabCmd.advance, TabCmd.retreat]).titles.length :=
  ⟨by decide, by decide,
    C1_tab_index_invariant App.new [TabCmd.retreat, TabCmd.advance, TabCmd.retreat]
      (by decide) (by decide)⟩

/-- C3: on every in-range state, the branching `App::previous` computes
exactly the modular formula `(cur_tab - 1 + titles.length) % titles.length`
(read over the integers). -/
theorem C3_previous_is_modular (a : App)
    (hn : 0 < a.titles.length) (hc : a.cur_tab < a.titles.length) :
    (a.previous.cur_tab : Int)
      = ((a.cur_tab : Int) - 1 + (a.titles.length : Int)) % (a.titles.length : Int) := by
  rw [previous_cur_tab]
  split
  case isTrue h =>
    have h1 : ((a.cur_tab : Int) - 1 + a.titles.length) % a.titles.length
        = (a.cur_tab : Int) - 1 := by
      rw [show ((a.cur_tab : Int) - 1 + a.titles.length)
            = ((a.cur_tab : Int) - 1) + (a.titles.length : Int) * 1 by ring,
        Int.add_mul_emod_self_left]
      exact Int.emod_eq_of_lt (by omega) (by omega)
    rw [h1]
    omega
  case isFalse h =>
    have h0 : a.cur_tab = 0 := by omega
    rw [h0]
    have h1 : (((0 : Nat) : Int)) - 1 + a.titles.length = (a.titles.length : Int) - 1 := by
      push_cast
      ring
    rw [h1, Int.emod_eq_of_lt (by omega) (by omega)]
    omega

/-- C3 witness: `App::previous` at the wrap-around point of `App::new()`. -/
theorem C3_previous_is_modular_witness :
    0 < App.new.titles.length ∧ App.new.cur_tab < App.new.titles.length ∧
      (App.new.previous.cur_tab : Int)
        = ((App.new.cur_tab : Int) - 1 + (App.new.titles.length : Int))
            % (App.new.titles.length : Int) :=
  ⟨by decide, by decide, C3_previous_is_modular App.new (by decide) (by decide)⟩

/-- C5: starting from any `scroll < 10`, `k` calls of `App::on_tick` leave
`scroll = (initial + k) % 10` when `k < 10`, and exactly `10` calls return
`scroll` to its initial value. -/
theorem C5_on_tick_cycles (a : App) (k : Nat) (hs : a.scroll < 10) :
    (k < 10 → (App.iterTick k a).scroll = (a.scroll + k) % 10)
      ∧ (App.iterTick 10 a).scroll = a.scroll := by
  constructor
  · intro _
    exact iterTick_scroll k a hs
  · rw [iterTick_scroll 10 a hs, Nat.add_mod_right, Nat.mod_eq_of_lt hs]

/-- C5 witness: three ticks and ten ticks from `App::new()`. -/
theorem C5_on_tick_cycles_witness :
    App.new.scroll < 10 ∧
      ((3 < 10 → (App.iterTick 3 App.new).scroll = (App.new.scroll + 3) % 10)
        ∧ (App.iterTick 10 App.new).scroll = App.new.scroll) :=
  ⟨by decide, C5_on_tick_cycles App.new 3 (by decide)⟩

/-- C6: calling `App::next` exactly `titles.length` times returns
`cur_tab` to its original value. -/
theorem C6_next_is_cyclic (a : App)
    (hn : 0 < a.titles.length) (hc : a.cur_tab < a.titles.length) :
    (App.iterNext a.titles.length a).cur_tab = a.cur_tab := by
  rw [iterNext_cur_tab _ a hc, Nat.add_mod_right, Nat.mod_eq_of_lt hc]

/-- C6 witness: four `App::next` calls from `App::new()`. -/
theorem C6_next_is_cyclic_witness :
    0 < App.new.titles.length ∧ App.new.cur_tab < App.new.titles.length ∧
      (App.iterNext App.new.titles.length App.new).cur_tab = App.new.cur_tab :=
  ⟨by decide, by decide, C6_next_is_cyclic App.new (by decide) (by decide)⟩

/-- C7: on every in-range state, `App::next` followed by `App::previous`
restores `cur_tab`, and `App::previous` followed by `App::next` restores
it as well. -/
theorem C7_next_previous_mutual_inverses (a : App)
    (hn : 0 < a.titles.length) (hc : a.cur_tab < a.titles.length) :
    a.next.previous.cur_tab = a.cur_tab ∧ a.previous.next.cur_tab = a.cur_tab := by
  constructor
  · rw [previous_cur_tab, next_titles, next_cur_tab]
    rcases Nat.lt_or_ge (a.cur_tab + 1) a.titles.length with h1 | h1
    · rw [Nat.mod_eq_of_lt h1]
      rw [if_pos (Nat.succ_pos _)]
      omega
    · have he : a.cur_tab + 1 = a.titles.length := by omega
      rw [he, Nat.mod_self, if_neg (by omega)]
      omega
  · rw [next_cur_tab, previous_titles, previous_cur_tab]
    rcases Nat.eq_zero_or_pos a.cur_tab with h0 | h0
    · rw [h0, if_neg (by omega), Nat.sub_add_cancel hn, Nat.mod_self]
    · rw [if_pos h0, Nat.sub_add_cancel h0, Nat.mod_eq_of_lt hc]

/-- C7 witness: the inverse laws at `App::new()`. -/
theorem C7_next_previous_mutual_inverses_witness :
    0 < App.new.titles.length ∧ App.new.cur_tab < App.new.titles.length ∧
      (App.new.next.previous.cur_tab = App.new.cur_tab
        ∧ App.new.previous.next.cur_tab = App.new.cur_tab) :=
  ⟨by decide, by decide, C7_next_previous_mutual_inverses App.new (by decide) (by decide)⟩

/-- C2 counterexample: a run whose first loop iteration fails to draw,
with every terminal-mode step succeeding.  `run_app` returns the error,
yet `main` returns `Ok(())` — so it is false that `main` returns an `Err`
result whenever `run_app` returns an `Err`. -/
theorem C2_main_swallows_error :
    runApp App.new failingWorld.trace = LoopOutcome.failed "draw failed"
      ∧ (mainRun failingWorld).1 = Except.ok () :=
  ⟨rfl, rfl⟩

/-- C2 amended: a collaborator error inside the loop makes `run_app`
return it at once — no retry, no further iterations — and `main`, when the
terminal-restoring steps succeed, restores the terminal mode, prints the
error, and returns `Ok(())` (exit status zero), not an `Err`. -/
theorem C2_loop_errors_fatal (w : MainWorld) (e : String) (a : App)
    (i : IterInput) (rest : List IterInput)
    (hiter : runIter a i = LoopStep.failed e)
    (h1 : w.enableRaw = Except.ok ()) (h2 : w.enterAltScreen = Except.ok ())
    (h3 : w.newTerminal = Except.ok ())
    (h4 : w.disableRaw = Except.ok ()) (h5 : w.leaveAltScreen = Except.ok ())
    (h6 : w.showCursor = Except.ok ())
    (hrun : runApp App.new w.trace = LoopOutcome.failed e) :
    runApp a (i :: rest) = LoopOutcome.failed e
      ∧ mainRun w = (Except.ok (), [e]) := by
  constructor
  · simp only [runApp, hiter]
  · simp [mainRun, h1, h2, h3, h4, h5, h6, hrun]

/-- C2 witness: the amended behavior at the concrete failing run. -/
theorem C2_loop_errors_fatal_witness :
    runApp App.new [failingIter] = LoopOutcome.failed "draw failed"
      ∧ mainRun failingWorld = (Except.ok (), ["draw failed"]) :=
  C2_loop_errors_fatal failingWorld "draw failed" App.new failingIter []
    rfl rfl rfl rfl rfl rfl rfl rfl

/-- C4: the poll timeout is the saturating difference
`max(0, tickRate - elapsed)`: with a 250ms tick, 90ms elapsed gives 160ms,
any elapsed time of at least 250ms gives exactly 0, and in general the
computed timeout equals `max 0 (tickRate - elapsed)` over the integers. -/
theorem C4_poll_timeout_saturates (t e : Nat) :
    computeTimeout 250 90 = 160
      ∧ (∀ k : Nat, computeTimeout 250 (250 + k) = 0)
      ∧ ((computeTimeout t e : Int) = max 0 ((t : Int) - (e : Int))) := by
  refine ⟨rfl, ?_, ?_⟩
  · intro k
    rcases Nat.eq_zero_or_pos k with hk | hk
    · subst hk
      rfl
    · have h : ¬ (250 + k ≤ 250) := by omega
      simp [computeTimeout, checkedSub, h]
  · by_cases h : e ≤ t
    · have hv : computeTimeout t e = t - e := by
        simp [computeTimeout, checkedSub, h]
      rw [hv, Nat.cast_sub h, max_eq_right (by omega)]
    · have hv : computeTimeout t e = 0 := by
        simp [computeTimeout, checkedSub, h]
      rw [hv, max_eq_left (by omega)]
      simp

/-- C8: on an iteration whose draw succeeds and whose poll reports an
event that reads successfully, the loop body acts exactly as the fixed
total decoding: `q` quits, right arrow advances the tab, left arrow
retreats it, and every other event is a no-op. -/
theorem C8_input_decoding (a : App) (i : IterInput) (ev : RawEvent)
    (hd : i.drawRes = Except.ok ()) (hp : i.pollRes = Except.ok true)
    (hr : i.readRes = Except.ok ev) :
    runIter a i = dispatchCmd a i (specDecode ev)
      ∧ specDecode (RawEvent.key (KeyCode.char 'q')) = Command.Quit
      ∧ specDecode (RawEvent.key KeyCode.right) = Command.NextTab
      ∧ specDecode (RawEvent.key KeyCode.left) = Command.PreviousTab
      ∧ (∀ ev2 : RawEvent, ev2 ≠ RawEvent.key (KeyCode.char 'q')
          → ev2 ≠ RawEvent.key KeyCode.right → ev2 ≠ RawEvent.key KeyCode.left
          → specDecode ev2 = Command.NoOp) := by
  refine ⟨?_, rfl, rfl, rfl, ?_⟩
  · cases ev with
    | key k =>
        cases k with
        | char c =>
            by_cases hq : c = 'q' <;>
              simp [runIter, hd, hp, hr, specDecode, dispatchCmd, hq]
        | right => simp [runIter, hd, hp, hr, specDecode, dispatchCmd]
        | left => simp [runIter, hd, hp, hr, specDecode, dispatchCmd]
        | up => simp [runIter, hd, hp, hr, specDecode, dispatchCmd]
        | down => simp [runIter, hd, hp, hr, specDecode, dispatchCmd]
        | enter => simp [runIter, hd, hp, hr, specDecode, dispatchCmd]
        | esc => simp [runIter, hd, hp, hr, specDecode, dispatchCmd]
        | otherKey => simp [runIter, hd, hp, hr, specDecode, dispatchCmd]
    | mouse => simp [runIter, hd, hp, hr, specDecode, dispatchCmd]
    | resize => simp [runIter, hd, hp, hr, specDecode, dispatchCmd]
  · intro ev2 hq hrr hl
    cases ev2 with
    | key k =>
        cases k with
        | char c =>
            have hc : ¬ (c = 'q') := by
              intro hc
              exact hq (by rw [hc])
            simp [specDecode, hc]
        | right => exact absurd rfl hrr
        | left => exact absurd rfl hl
        | up => rfl
        | down => rfl
        | enter => rfl
        | esc => rfl
        | otherKey => rfl
    | mouse => rfl
    | resize => rfl

/-- C8 witness: the decoding and dispatch on a concrete right-arrow
iteration. -/
theorem C8_input_decoding_witness :
    runIter App.new iterOkRight
        = dispatchCmd App.new iterOkRight (specDecode (RawEvent.key KeyCode.right))
      ∧ specDecode (RawEvent.key (KeyCode.char 'q')) = Command.Quit
      ∧ specDecode (RawEvent.key KeyCode.right) = Command.NextTab
      ∧ specDecode (RawEvent.key KeyCode.left) = Command.PreviousTab
      ∧ (∀ ev2 : RawEvent, ev2 ≠ RawEvent.key (KeyCode.char 'q')
          → ev2 ≠ RawEvent.key KeyCode.right → ev2 ≠ RawEvent.key KeyCode.left
          → specDecode ev2 = Command.NoOp) :=
  C8_input_decoding App.new iterOkRight (RawEvent.key KeyCode.right) rfl rfl rfl

/-- C9: `App::next` and `App::previous` leave `inventory`, `titles` and
`scroll` unchanged, and `App::on_tick` leaves `inventory`, `titles` and
`cur_tab` unchanged: no operation mutates the inventory or the tab
labels. -/
theorem C9_operations_frame (a : App) :
    (a.next.inventory = a.inventory ∧ a.next.titles = a.titles
        ∧ a.next.scroll = a.scroll)
      ∧ (a.previous.inventory = a.inventory ∧ a.previous.titles = a.titles
          ∧ a.previous.scroll = a.scroll)
      ∧ (a.on_tick.inventory = a.inventory ∧ a.on_tick.titles = a.titles
          ∧ a.on_tick.cur_tab = a.cur_tab) := by
  refine ⟨⟨rfl, rfl, rfl⟩, ⟨?_, ?_, ?_⟩, ⟨rfl, rfl, rfl⟩⟩ <;>
    (unfold App.previous; split <;> rfl)

/-- C10: every state reachable from `App::new()` by `App::next` and
`App::previous` calls has `cur_tab < 4`, so the `ui` match on `cur_tab`
always lands in one of the arms 0 to 3 and the `unreachable!()` arm is
never hit. -/
theorem C10_ui_match_never_unreachable (cs : List TabCmd) :
    (App.new.runTabs cs).cur_tab < 4
      ∧ (uiInnerTitle (App.new.runTabs cs).cur_tab).isSome = true := by
  have hlt := runTabs_cur_tab_lt cs App.new (by decide) (by decide)
  have h4 : App.new.titles.length = 4 := rfl
  rw [h4] at hlt
  refine ⟨hlt, ?_⟩
  have hcase : (App.new.runTabs cs).cur_tab = 0 ∨ (App.new.runTabs cs).cur_tab = 1
      ∨ (App.new.runTabs cs).cur_tab = 2 ∨ (App.new.runTabs cs).cur_tab = 3 := by
    omega
  rcases hcase with h | h | h | h <;> rw [h] <;> rfl

end FluxSurvivalist
